import Mathlib

/-!
Verification of the RAW image processor's enhancement pipeline, parameter
normalizer and orchestration, as a shallow embedding of
`raw_image_processor.py`.

Modelling conventions:
* A raster (numpy `h×w×c` uint8 array) is a `List (List (List ℕ))` —
  rows of pixels of channel samples; samples carry the invariant `≤ 255`
  as explicit hypotheses where needed.
* Float arithmetic is modelled exactly over `ℚ` (every constant appearing
  in the source — 127.5, user slider values, scale factors — is exactly
  representable, so no rounding discrepancy between float32 and ℚ is
  exercised by any claim).
* External OpenCV / rawpy calls (Gaussian blur, non-local-means denoising,
  BGR↔HSV conversion, RAW decoding, JPEG encoding) are opaque collaborator
  functions, passed in as record fields; a call that raises a Python
  exception is modelled as `Except.error ()`.
* `numpy.ndarray.astype(np.uint8)` on a float array is C-style truncation
  toward zero (with wraparound outside `[0, 256)`), modelled by `npU8`.
  Python `int()` is truncation toward zero, modelled by `pyInt`.
* `cv2.addWeighted` / `saturate_cast<uchar>` rounds to nearest and clamps
  to `[0, 255]`, modelled by `satCast`.
* The file system is a set of existing paths (`List String`); `os.makedirs`
  adds a path, and `cv2.imwrite` adds a path exactly when it returns `True`
  (it reports ordinary write failures by returning `False` without raising,
  a return value the source discards).
-/

namespace RawProc

/-- Channel samples of one pixel (uint8 values as `ℕ`). -/
abbrev Pixel := List ℕ

/-- A decoded bitmap: rows of pixels. -/
abbrev Raster := List (List Pixel)

/-- A float-valued pixel (numpy float32 modelled exactly over `ℚ`). -/
abbrev QPixel := List ℚ

/-- A float-valued raster (`hsv.astype(np.float32)` intermediate). -/
abbrev QRaster := List (List QPixel)

/-- Python `int(q)`: truncation toward zero. -/
def pyInt (q : ℚ) : ℤ := if 0 ≤ q then ⌊q⌋ else ⌈q⌉

/-- `np.clip(q, 0, 255)`. -/
def clip255 (q : ℚ) : ℚ := max 0 (min 255 q)

/-- OpenCV `saturate_cast<uchar>`: round to nearest, clamp to `[0,255]`. -/
def satCast (q : ℚ) : ℕ := (min 255 (max 0 (round q))).toNat

/-- `astype(np.uint8)` on one float sample: C truncation toward zero with
wraparound modulo 256 outside the representable range. -/
def npU8 (q : ℚ) : ℕ := (pyInt q % 256).toNat

/-- Map a function over every channel sample of a raster. -/
def pixmap (f : α → β) (r : List (List (List α))) : List (List (List β)) :=
  r.map (fun row => row.map (fun px => px.map f))

/-- `hsv.astype(np.float32)`: embed uint8 samples into ℚ. -/
def toQ (r : Raster) : QRaster := pixmap (fun (n : ℕ) => (n : ℚ)) r

/-- `hsv.astype(np.uint8)` on a float raster. -/
def hsvToU8 (r : QRaster) : Raster := pixmap npU8 r

/-- Channel count of a raster, read off the first pixel (numpy arrays are
rectangular, so the first pixel's sample count is `shape[2]`; an empty
raster or row reads as 0, matching no third axis). -/
def numChannels (r : List (List (List α))) : ℕ :=
  ((r.headD []).headD []).length

/-- `cv2.cvtColor(·, cv2.COLOR_GRAY2BGR)`: replicate a single channel into
three.  Only invoked by the source under the one-channel guard; other pixel
shapes are passed through. -/
def gray2bgr (r : Raster) : Raster :=
  r.map (fun row => row.map (fun px =>
    match px with
    | [v] => [v, v, v]
    | px => px))

/-- The dimensions of a raster: per row, the channel count of each pixel. -/
def shape (r : Raster) : List (List ℕ) := r.map (fun row => row.map List.length)

/-- A raster as produced by the RAW decoder: three channels per pixel,
samples in the uint8 range. -/
def wellFormed (r : Raster) : Prop :=
  ∀ row ∈ r, ∀ px ∈ row, px.length = 3 ∧ ∀ v ∈ px, v ≤ 255

instance (r : Raster) : Decidable (wellFormed r) := by
  unfold wellFormed; infer_instance

/-- `cv2.addWeighted(src1, a, src2, b, g)`: per-sample saturating affine
combination.  OpenCV requires equal shapes; on equal-shaped inputs the
`zipWith` nesting is total. -/
def addWeighted (src1 : Raster) (a : ℚ) (src2 : Raster) (b : ℚ) (g : ℚ) : Raster :=
  List.zipWith (List.zipWith (List.zipWith
    (fun (x y : ℕ) => satCast (a * (x : ℚ) + b * (y : ℚ) + g)))) src1 src2

/-- Modelled from the claim's words (C3): per-sample clamped 8-bit value of
`original * (1 + strength) + blurred * (-strength)`. -/
def unsharpSpec (s : ℚ) (orig blurred : Raster) : Raster :=
  List.zipWith (List.zipWith (List.zipWith
    (fun (x y : ℕ) => satCast ((x : ℚ) * (1 + s) + (y : ℚ) * (-s))))) orig blurred

/-- `hsv[:,:,1] = hsv[:,:,1] * saturation; hsv[:,:,1] = np.clip(hsv[:,:,1], 0, 255)`
on one pixel: scale the saturation channel (index 1) and clip it. -/
def satScalePixel (s : ℚ) : QPixel → QPixel
  | h :: sv :: t => h :: clip255 (sv * s) :: t
  | px => px

/-- The saturation adjustment over the whole HSV float raster. -/
def satScale (s : ℚ) (r : QRaster) : QRaster :=
  r.map (fun row => row.map (satScalePixel s))

/-- One sample of the contrast adjustment:
`np.clip((x - 127.5) * contrast + 127.5, 0, 255).astype(np.uint8)`. -/
def contrastSample (c : ℚ) (x : ℕ) : ℕ :=
  npU8 (clip255 (((x : ℚ) - 255/2) * c + 255/2))

/-- The contrast adjustment over the whole raster. -/
def contrastStage (c : ℚ) (r : Raster) : Raster :=
  pixmap (contrastSample c) r

/-- The native-range filter parameters passed to `process_raw_image`. -/
structure Params where
  sharpening_strength : ℚ
  blur_sigma : ℚ
  jpeg_quality : ℤ
  noise_reduction : ℚ
  saturation : ℚ
  contrast : ℚ
deriving DecidableEq

/-- The six slider values read from the UI (0–100 scale, floats or ints). -/
structure UISliders where
  sharpening : ℚ
  blur : ℚ
  quality : ℚ
  noise : ℚ
  saturation : ℚ
  contrast : ℚ
deriving DecidableEq

/-- The Parameter Normalizer: the scaling block of
`RawImageProcessorApp.do_process_image` (source lines 285–291).
`int(...)` is Python truncation toward zero. -/
def normalizeParams (ui : UISliders) : Params where
  sharpening_strength := ui.sharpening / 100 * 3
  blur_sigma := (pyInt ui.blur : ℚ)
  jpeg_quality := pyInt ui.quality
  noise_reduction := ui.noise / 100
  saturation := ui.saturation / 50
  contrast := ui.contrast / 50

/-- The OpenCV collaborators used by the enhancement pipeline.  Each may
raise (`Except.error ()`).  `gaussianBlur` takes the kernel-size pair and
the two sigma arguments exactly as at the call site. -/
structure CvOps where
  gaussianBlur : ℕ × ℕ → ℚ → ℚ → Raster → Except Unit Raster
  fastNlMeansDenoisingColored : Raster → ℚ → ℚ → ℕ → ℕ → Except Unit Raster
  bgr2hsv : Raster → Except Unit Raster
  hsv2bgr : Raster → Except Unit Raster

/-- The Enhancement Pipeline: lines 48–90 of `process_raw_image`, from the
BGR raster to the raster handed to `cv2.imwrite`.  The source calls
`cv2.GaussianBlur(image_bgr, (0, 0), sigmaX=blur_sigma)` — kernel size
`(0,0)` is OpenCV's derive-from-sigma sentinel and the omitted `sigmaY`
defaults to 0, which OpenCV interprets as "equal to sigmaX". -/
def enhance (cv : CvOps) (p : Params) (image_bgr : Raster) : Except Unit Raster := do
  let blurred ← cv.gaussianBlur (0, 0) p.blur_sigma 0 image_bgr
  let sharpened := addWeighted image_bgr (1 + p.sharpening_strength)
      blurred (-p.sharpening_strength) 0
  let sharpened ←
    if p.noise_reduction > 0 then
      cv.fastNlMeansDenoisingColored sharpened
        (p.noise_reduction * 10) (p.noise_reduction * 10) 7 21
    else pure sharpened
  let enhanced ←
    if p.saturation ≠ 1 ∨ p.contrast ≠ 1 then do
      let hsvU8 ← cv.bgr2hsv sharpened
      let hsv := toQ hsvU8
      let hsv := if p.saturation ≠ 1 then satScale p.saturation hsv else hsv
      let enhanced ← cv.hsv2bgr (hsvToU8 hsv)
      pure (if p.contrast ≠ 1 then contrastStage p.contrast enhanced else enhanced)
    else pure sharpened
  pure (if numChannels enhanced = 1 then gray2bgr enhanced else enhanced)

/-- The unconditional unsharp-masking stage (lines 50–56). -/
def sharpenStage (cv : CvOps) (p : Params) (img : Raster) : Except Unit Raster := do
  let blurred ← cv.gaussianBlur (0, 0) p.blur_sigma 0 img
  pure (addWeighted img (1 + p.sharpening_strength) blurred (-p.sharpening_strength) 0)

/-- The conditional denoising stage (lines 59–63). -/
def denoiseStage (cv : CvOps) (p : Params) (img : Raster) : Except Unit Raster :=
  if p.noise_reduction > 0 then
    cv.fastNlMeansDenoisingColored img (p.noise_reduction * 10) (p.noise_reduction * 10) 7 21
  else pure img

/-- The conditional saturation scaling inside the color block (lines 71–73). -/
def satScaled (p : Params) (hsv : QRaster) : QRaster :=
  if p.saturation ≠ 1 then satScale p.saturation hsv else hsv

/-- The conditional saturation/contrast block (lines 66–85). -/
def colorStage (cv : CvOps) (p : Params) (img : Raster) : Except Unit Raster :=
  if p.saturation ≠ 1 ∨ p.contrast ≠ 1 then do
    let hsvU8 ← cv.bgr2hsv img
    let enhanced ← cv.hsv2bgr (hsvToU8 (satScaled p (toQ hsvU8)))
    pure (if p.contrast ≠ 1 then contrastStage p.contrast enhanced else enhanced)
  else pure img

/-- The grayscale guard (lines 88–90). -/
def guardStage (img : Raster) : Raster :=
  if numChannels img = 1 then gray2bgr img else img

/-- The file system as the set of existing paths. -/
abbrev FS := List String

/-- `os.path.exists`. -/
def pathExists (fs : FS) (p : String) : Bool := fs.contains p

/-- `os.path.dirname` (POSIX): the part before the last slash, with the
basename and any slashes directly before it removed; `""` when there is no
slash, `"/"` when only the root remains. -/
def dirname (p : String) : String :=
  match (p.toList.reverse).dropWhile (fun c => c ≠ '/') with
  | [] => ""
  | _ :: rest =>
    match rest.dropWhile (fun c => c = '/') with
    | [] => "/"
    | head => String.mk head.reverse

/-- `cv2.cvtColor(·, cv2.COLOR_RGB2BGR)`: reverse the channel order of each
pixel. -/
def cvtRGB2BGR (r : Raster) : Raster := r.map (fun row => row.map List.reverse)

/-- The collaborators used by the orchestration: the RAW decoder
(`rawpy.imread` + `postprocess`), the OpenCV operations, and `cv2.imwrite`.
`cv2.imwrite` has two failure channels: it can raise (caught by the
`try/except`), and it reports ordinary write failures — e.g. an unwritable
path — by returning `False` without raising.  The returned flag is `true`
exactly when the file was written. -/
structure AppOps where
  rawDecode : String → Except Unit Raster
  cv : CvOps
  imwrite : String → Raster → ℤ → Except Unit Bool

/-- `process_raw_image` (lines 12–100): the whole body runs inside
`try/except`, so every raise from a collaborator turns into the `none`
result; the returned `FS` records the paths that exist afterward.  Line 93
discards `cv2.imwrite`'s boolean return value, so the function returns the
output path whenever `imwrite` does not raise — even when the flag says the
file was not written; only the flag decides whether the output path exists
afterward. -/
def process_raw_image (app : AppOps) (fs : FS) (input_path output_path : String)
    (p : Params) : Option String × FS :=
  if pathExists fs input_path = false then (none, fs)
  else
    let output_dir := dirname output_path
    let fs1 := if output_dir ≠ "" ∧ pathExists fs output_dir = false
               then output_dir :: fs else fs
    match app.rawDecode input_path with
    | .error _ => (none, fs1)
    | .ok rgb_image =>
      let image_bgr := cvtRGB2BGR rgb_image
      match enhance app.cv p image_bgr with
      | .error _ => (none, fs1)
      | .ok enhanced =>
        match app.imwrite output_path enhanced p.jpeg_quality with
        | .error _ => (none, fs1)
        | .ok wrote => (some output_path, if wrote then output_path :: fs1 else fs1)

/-- Identity instantiation of the OpenCV collaborators, used to evaluate the
pipeline at concrete inputs (on a 1×1 raster the identity is also the true
behaviour of a normalized Gaussian blur). -/
def idCv : CvOps where
  gaussianBlur := fun _ _ _ img => .ok img
  fastNlMeansDenoisingColored := fun img _ _ _ _ => .ok img
  bgr2hsv := fun img => .ok img
  hsv2bgr := fun img => .ok img

/-- Collaborators whose HSV→BGR conversion always returns a 3-channel
raster, as OpenCV's does. -/
def guardCv : CvOps where
  gaussianBlur := fun _ _ _ img => .ok img
  fastNlMeansDenoisingColored := fun img _ _ _ _ => .ok img
  bgr2hsv := fun img => .ok img
  hsv2bgr := fun _ => .ok [[[0, 0, 0]]]

/-- App collaborators that decode every path to a fixed 1×1 raster and
always write successfully. -/
def idApp : AppOps where
  rawDecode := fun _ => .ok [[[1, 2, 3]]]
  cv := idCv
  imwrite := fun _ _ _ => .ok true

/-- App collaborators whose RAW decoder always raises. -/
def failDecodeApp : AppOps where
  rawDecode := fun _ => .error ()
  cv := idCv
  imwrite := fun _ _ _ => .ok true

/-- App collaborators whose codec always fails the write without raising —
`cv2.imwrite` returning `False`, as for an unwritable path. -/
def failWriteApp : AppOps where
  rawDecode := fun _ => .ok [[[1, 2, 3]]]
  cv := idCv
  imwrite := fun _ _ _ => .ok false

/-- The all-zero slider state (every slider inside `[0, 100]`). -/
def uiZero : UISliders := ⟨0, 0, 0, 0, 0, 0⟩

end RawProc

namespace RawProc

/-! ### Helper lemmas about the embedded primitives -/

theorem ok_bind {ε α β : Type} (a : α) (f : α → Except ε β) :
    (Except.ok a : Except ε α) >>= f = f a := rfl

theorem error_bind {ε α β : Type} (u : ε) (f : α → Except ε β) :
    (Except.error u : Except ε α) >>= f = Except.error u := rfl

theorem pure_eq_ok {ε α : Type} (a : α) : (pure a : Except ε α) = Except.ok a := rfl

theorem pyInt_of_nonneg (q : ℚ) (h : 0 ≤ q) : pyInt q = ⌊q⌋ := if_pos h

theorem pyInt_intCast (n : ℤ) : pyInt ((n : ℚ)) = n := by
  by_cases h : (0 : ℚ) ≤ (n : ℚ)
  · rw [pyInt, if_pos h, Int.floor_intCast]
  · rw [pyInt, if_neg h, Int.ceil_intCast]

theorem satCast_natCast (x : ℕ) (h : x ≤ 255) : satCast ((x : ℚ)) = x := by
  have h2 : (0 : ℤ) ≤ (x : ℤ) := Int.natCast_nonneg x
  have h3 : (x : ℤ) ≤ 255 := by exact_mod_cast h
  rw [satCast, round_natCast, max_eq_right h2, min_eq_right h3, Int.toNat_natCast]

theorem npU8_natCast (x : ℕ) (h : x ≤ 255) : npU8 ((x : ℚ)) = x := by
  have h0 : (0 : ℚ) ≤ (x : ℚ) := by positivity
  have h1 : pyInt ((x : ℚ)) = (x : ℤ) := by
    rw [pyInt, if_pos h0, Int.floor_natCast]
  rw [npU8, h1,
    Int.emod_eq_of_lt (Int.natCast_nonneg x) (by exact_mod_cast Nat.lt_succ_of_le h),
    Int.toNat_natCast]

theorem zipWith_left_id {α β : Type} (f : α → β → α) :
    ∀ (l₁ : List α) (l₂ : List β), l₁.length = l₂.length →
      (∀ x ∈ l₁, ∀ y ∈ l₂, f x y = x) → List.zipWith f l₁ l₂ = l₁ := by
  intro l₁
  induction l₁ with
  | nil => intro l₂ _ _; simp
  | cons a t ih =>
    intro l₂ h hf
    cases l₂ with
    | nil => simp at h
    | cons b t₂ =>
      rw [List.zipWith_cons_cons, hf a (by simp) b (by simp),
        ih t₂ (by simpa using h)
          (fun x hx y hy => hf x (by simp [hx]) y (by simp [hy]))]

theorem addWeighted_px (px py : Pixel) (h : px.length = py.length)
    (hv : ∀ v ∈ px, v ≤ 255) :
    List.zipWith (fun (x y : ℕ) => satCast (1 * (x : ℚ) + 0 * (y : ℚ) + 0)) px py = px := by
  apply zipWith_left_id _ _ _ h
  intro x hx y _
  have he : (1 : ℚ) * x + 0 * y + 0 = ((x : ℕ) : ℚ) := by ring
  rw [he, satCast_natCast x (hv x hx)]

theorem addWeighted_row : ∀ (row brow : List Pixel),
    row.map List.length = brow.map List.length →
    (∀ px ∈ row, ∀ v ∈ px, v ≤ 255) →
    List.zipWith (List.zipWith (fun (x y : ℕ) => satCast (1 * (x : ℚ) + 0 * (y : ℚ) + 0)))
      row brow = row := by
  intro row
  induction row with
  | nil => intro brow _ _; simp
  | cons px t ih =>
    intro brow h hv
    cases brow with
    | nil => simp at h
    | cons py t₂ =>
      simp only [List.map_cons, List.cons.injEq] at h
      rw [List.zipWith_cons_cons, addWeighted_px px py h.1 (hv px (by simp)),
        ih t₂ h.2 (fun q hq v hv' => hv q (by simp [hq]) v hv')]

theorem addWeighted_one_zero : ∀ (r b : Raster), shape b = shape r →
    (∀ row ∈ r, ∀ px ∈ row, ∀ v ∈ px, v ≤ 255) →
    addWeighted r 1 b 0 0 = r := by
  intro r
  induction r with
  | nil => intro b _ _; simp [addWeighted]
  | cons row t ih =>
    intro b h hv
    cases b with
    | nil => simp [shape] at h
    | cons brow t₂ =>
      simp only [shape, List.map_cons, List.cons.injEq] at h
      rw [addWeighted, List.zipWith_cons_cons,
        addWeighted_row row brow h.1.symm (hv row (by simp))]
      have ht : addWeighted t 1 t₂ 0 0 = t :=
        ih t₂ (by simpa [shape] using h.2) (fun q hq px hpx v hv' => hv q (by simp [hq]) px hpx v hv')
      rw [addWeighted] at ht
      rw [ht]

theorem pixmap_pixmap (f : α → β) (g : β → γ) (r : List (List (List α))) :
    pixmap g (pixmap f r) = pixmap (fun x => g (f x)) r := by
  simp [pixmap, List.map_map, Function.comp_def]

theorem pixmap_eq_self (f : ℕ → ℕ) (r : Raster)
    (h : ∀ row ∈ r, ∀ px ∈ row, ∀ v ∈ px, f v = v) : pixmap f r = r := by
  unfold pixmap
  have : ∀ row ∈ r, row.map (fun px => px.map f) = row := by
    intro row hrow
    have : ∀ px ∈ row, px.map f = px := by
      intro px hpx
      rw [List.map_congr_left (fun v hv => h row hrow px hpx v hv), List.map_id']
    rw [List.map_congr_left this, List.map_id']
  rw [List.map_congr_left this, List.map_id']

theorem hsvToU8_toQ (r : Raster)
    (h : ∀ row ∈ r, ∀ px ∈ row, ∀ v ∈ px, v ≤ 255) : hsvToU8 (toQ r) = r := by
  rw [hsvToU8, toQ, pixmap_pixmap]
  exact pixmap_eq_self _ r (fun row hrow px hpx v hv => npU8_natCast v (h row hrow px hpx v hv))

theorem numChannels_pixmap (f : α → β) (r : List (List (List α))) :
    numChannels (pixmap f r) = numChannels r := by
  cases r with
  | nil => rfl
  | cons row t =>
    cases row with
    | nil => rfl
    | cons px t₂ => simp [numChannels, pixmap]

theorem numChannels_pos_shape (r : List (List (List α))) (c : ℕ) (hc : 0 < c)
    (h : numChannels r = c) :
    ∃ px t₂ t, r = (px :: t₂) :: t ∧ List.length px = c := by
  cases r with
  | nil => simp [numChannels] at h; omega
  | cons row t =>
    cases row with
    | nil => simp [numChannels] at h; omega
    | cons px t₂ =>
      refine ⟨px, t₂, t, rfl, ?_⟩
      simpa [numChannels] using h

theorem numChannels_addWeighted (r b : Raster) (a β g : ℚ) (c : ℕ) (hc : 0 < c)
    (hr : numChannels r = c) (hb : numChannels b = c) :
    numChannels (addWeighted r a b β g) = c := by
  obtain ⟨px, t₂, t, rfl, hpx⟩ := numChannels_pos_shape r c hc hr
  obtain ⟨qx, s₂, s, rfl, hqx⟩ := numChannels_pos_shape b c hc hb
  simp [addWeighted, numChannels, hpx, hqx]

theorem wellFormed_numChannels (r : Raster) (h : wellFormed r) : numChannels r ≠ 1 := by
  cases r with
  | nil => simp [numChannels]
  | cons row t =>
    cases row with
    | nil => simp [numChannels]
    | cons px t₂ =>
      have : px.length = 3 := (h (px :: t₂) (by simp) px (by simp)).1
      simp [numChannels, this]

theorem guardStage_of_ne_one (img : Raster) (h : numChannels img ≠ 1) :
    guardStage img = img := if_neg h

theorem numChannels_guardStage (img : Raster)
    (h : numChannels img = 1 ∨ numChannels img = 3) :
    numChannels (guardStage img) = 3 := by
  rcases h with h | h
  · obtain ⟨px, t₂, t, rfl, hpx⟩ := numChannels_pos_shape img 1 (by omega) h
    obtain ⟨v, hv⟩ : ∃ v, px = [v] := by
      cases px with
      | nil => simp at hpx
      | cons a s => cases s with
        | nil => exact ⟨a, rfl⟩
        | cons b s₂ => simp at hpx
      
    subst hv
    rw [guardStage, if_pos h]
    simp [gray2bgr, numChannels]
  · rw [guardStage, if_neg (by omega)]
    exact h

end RawProc

namespace RawProc

/-! ### Stage decomposition of the pipeline -/

theorem sharpenStage_ok (cv : CvOps) (p : Params) (img b : Raster)
    (hb : cv.gaussianBlur (0, 0) p.blur_sigma 0 img = .ok b) :
    sharpenStage cv p img =
      .ok (addWeighted img (1 + p.sharpening_strength) b (-p.sharpening_strength) 0) := by
  unfold sharpenStage
  rw [hb, ok_bind]
  rfl

theorem denoiseStage_of_zero (cv : CvOps) (p : Params) (img : Raster)
    (h : p.noise_reduction = 0) : denoiseStage cv p img = .ok img := by
  rw [denoiseStage, if_neg, pure_eq_ok]
  rw [h]
  exact lt_irrefl 0

theorem colorStage_skip (cv : CvOps) (p : Params) (img : Raster)
    (hs : p.saturation = 1) (hc : p.contrast = 1) : colorStage cv p img = .ok img := by
  rw [colorStage, if_neg, pure_eq_ok]
  rintro (h | h)
  · exact h hs
  · exact h hc

theorem colorStage_run (cv : CvOps) (p : Params) (img hsvU8 e : Raster)
    (h : p.saturation ≠ 1 ∨ p.contrast ≠ 1)
    (h1 : cv.bgr2hsv img = .ok hsvU8)
    (h2 : cv.hsv2bgr (hsvToU8 (satScaled p (toQ hsvU8))) = .ok e) :
    colorStage cv p img =
      .ok (if p.contrast ≠ 1 then contrastStage p.contrast e else e) := by
  rw [colorStage, if_pos h]
  show (cv.bgr2hsv img >>= fun hsvU8 =>
    cv.hsv2bgr (hsvToU8 (satScaled p (toQ hsvU8))) >>= fun enhanced =>
      pure (if p.contrast ≠ 1 then contrastStage p.contrast enhanced else enhanced)) = _
  rw [h1, ok_bind, h2, ok_bind, pure_eq_ok]

theorem enhance_eq_stages (cv : CvOps) (p : Params) (img : Raster) :
    enhance cv p img = (do
      let s ← sharpenStage cv p img
      let d ← denoiseStage cv p s
      let e ← colorStage cv p d
      pure (guardStage e)) := by
  unfold enhance sharpenStage denoiseStage colorStage guardStage satScaled
  cases hb : cv.gaussianBlur (0, 0) p.blur_sigma 0 img with
  | error u => rfl
  | ok b =>
    simp only [ok_bind, pure_eq_ok]
    by_cases hn : p.noise_reduction > 0
    · simp only [if_pos hn]
      cases hd : cv.fastNlMeansDenoisingColored
          (addWeighted img (1 + p.sharpening_strength) b (-p.sharpening_strength) 0)
          (p.noise_reduction * 10) (p.noise_reduction * 10) 7 21 with
      | error u => rfl
      | ok d =>
        simp only [ok_bind]
        by_cases hco : p.saturation ≠ 1 ∨ p.contrast ≠ 1
        · simp only [if_pos hco]
          cases hh : cv.bgr2hsv d with
          | error u => rfl
          | ok h8 =>
            simp only [ok_bind]
            cases hv : cv.hsv2bgr (hsvToU8
                (if p.saturation ≠ 1 then satScale p.saturation (toQ h8) else toQ h8)) with
            | error u => rfl
            | ok e => simp only [ok_bind, pure_eq_ok]
        · simp only [if_neg hco, ok_bind, pure_eq_ok]
    · simp only [if_neg hn, ok_bind, pure_eq_ok]
      by_cases hco : p.saturation ≠ 1 ∨ p.contrast ≠ 1
      · simp only [if_pos hco]
        cases hh : cv.bgr2hsv
            (addWeighted img (1 + p.sharpening_strength) b (-p.sharpening_strength) 0) with
        | error u => rfl
        | ok h8 =>
          simp only [ok_bind]
          cases hv : cv.hsv2bgr (hsvToU8
              (if p.saturation ≠ 1 then satScale p.saturation (toQ h8) else toQ h8)) with
          | error u => rfl
          | ok e => simp only [ok_bind, pure_eq_ok]
      · simp only [if_neg hco, ok_bind, pure_eq_ok]


end RawProc

namespace RawProc

/-- With zero sharpening strength and zero noise reduction, the first two
stages leave the raster unchanged. -/
theorem enhance_neutral_start (cv : CvOps) (p : Params) (r b : Raster)
    (hs : p.sharpening_strength = 0) (hn : p.noise_reduction = 0)
    (hb : cv.gaussianBlur (0, 0) p.blur_sigma 0 r = .ok b)
    (hshape : shape b = shape r)
    (hbounds : ∀ row ∈ r, ∀ px ∈ row, ∀ v ∈ px, v ≤ 255) :
    enhance cv p r = (colorStage cv p r >>= fun e => pure (guardStage e)) := by
  rw [enhance_eq_stages, sharpenStage_ok cv p r b hb, hs]
  rw [show (1 : ℚ) + 0 = 1 from by norm_num, show -(0 : ℚ) = 0 from neg_zero,
    addWeighted_one_zero r b hshape hbounds, ok_bind,
    denoiseStage_of_zero cv p r hn, ok_bind]

/-- After the color block, the guard leaves the raster with 3 channels
whenever the raster entering the block has 1 or 3 channels and the HSV→BGR
conversion produces 3 channels. -/
theorem channel_after_color (cv : CvOps) (p : Params) (d e : Raster)
    (hhsv : ∀ img b, cv.hsv2bgr img = .ok b → numChannels b = 3)
    (hcd : numChannels d = 1 ∨ numChannels d = 3)
    (he : (colorStage cv p d >>= fun x => pure (guardStage x)) = .ok e) :
    numChannels e = 3 := by
  unfold colorStage at he
  by_cases hco : p.saturation ≠ 1 ∨ p.contrast ≠ 1
  · rw [if_pos hco] at he
    cases hh : cv.bgr2hsv d with
    | error u => rw [hh, error_bind] at he; exact Except.noConfusion he
    | ok h8 =>
      rw [hh, ok_bind] at he
      cases hv : cv.hsv2bgr (hsvToU8 (satScaled p (toQ h8))) with
      | error u => rw [hv, error_bind] at he; exact Except.noConfusion he
      | ok x =>
        rw [hv, ok_bind, pure_eq_ok, ok_bind, pure_eq_ok] at he
        injection he with he2
        have hx3 : numChannels x = 3 := hhsv _ _ hv
        have h3 : numChannels (if p.contrast ≠ 1 then contrastStage p.contrast x else x) = 3 := by
          split
        
          · rw [contrastStage, numChannels_pixmap]; exact hx3
          · exact hx3
        rw [← he2]
        exact numChannels_guardStage _ (Or.inr h3)
  · rw [if_neg hco, pure_eq_ok, ok_bind, pure_eq_ok] at he
    injection he with he2
    rw [← he2]
    exact numChannels_guardStage d hcd

end RawProc

namespace RawProc

/-! ### C1 — Parameter Normalizer formulas -/

/-- C1 (counterexample): the claim says `blurSigma = round(uiBlur)`, but the
code computes `int(uiBlur)` — truncation toward zero.  At UI slider state
(50, 3.7, 95, 30, 55, 55) the normalizer yields blur_sigma = 3 while
round(3.7) = 4. -/
theorem normalizer_truncates_not_rounds :
    (normalizeParams ⟨50, 37/10, 95, 30, 55, 55⟩).blur_sigma = 3 ∧
    round ((37 : ℚ)/10) = 4 ∧
    (normalizeParams ⟨50, 37/10, 95, 30, 55, 55⟩).blur_sigma ≠
      ((round ((37 : ℚ)/10) : ℤ) : ℚ) := by
  have h1 : (normalizeParams ⟨50, 37/10, 95, 30, 55, 55⟩).blur_sigma = 3 := by
    show ((pyInt (37/10) : ℤ) : ℚ) = 3
    norm_num [pyInt]
  have h2 : round ((37 : ℚ)/10) = 4 := by norm_num [round_eq]
  refine ⟨h1, h2, ?_⟩
  rw [h1, h2]
  norm_num

/-- C1 (amended): the Parameter Normalizer computes
`sharpeningStrength = uiSharpen / 100 * 3`, `blurSigma = int(uiBlur)`,
`jpegQuality = int(uiQuality)` (Python `int`, i.e. truncation toward zero —
not rounding; on integral slider values truncation and rounding coincide),
`noiseReduction = uiNoise / 100`, `saturation = uiSaturation / 50`,
`contrast = uiContrast / 50`. -/
theorem normalizer_formulas :
    (∀ ui : UISliders,
      (normalizeParams ui).sharpening_strength = ui.sharpening / 100 * 3 ∧
      (normalizeParams ui).blur_sigma = ((pyInt ui.blur : ℤ) : ℚ) ∧
      (normalizeParams ui).jpeg_quality = pyInt ui.quality ∧
      (normalizeParams ui).noise_reduction = ui.noise / 100 ∧
      (normalizeParams ui).saturation = ui.saturation / 50 ∧
      (normalizeParams ui).contrast = ui.contrast / 50) ∧
    (∀ q : ℚ, 0 ≤ q → pyInt q = ⌊q⌋) ∧
    (∀ n : ℤ, pyInt ((n : ℚ)) = n ∧ round ((n : ℚ)) = n) :=
  ⟨fun _ => ⟨rfl, rfl, rfl, rfl, rfl, rfl⟩,
   fun q h => pyInt_of_nonneg q h,
   fun n => ⟨pyInt_intCast n, round_intCast n⟩⟩

/-- C1 witness: the amended formulas evaluated at a concrete slider state,
with the nonnegativity hypothesis discharged at 3.7. -/
theorem normalizer_formulas_app :
    (normalizeParams ⟨50, 3, 95, 30, 55, 55⟩).saturation = 55 / 50 ∧
    pyInt (37/10) = ⌊(37 : ℚ)/10⌋ :=
  ⟨(normalizer_formulas.1 ⟨50, 3, 95, 30, 55, 55⟩).2.2.2.2.1,
   normalizer_formulas.2.1 (37/10) (by norm_num)⟩

/-! ### C7 — native parameter ranges -/

/-- C7 (counterexample): the claim quantifies over slider 6-tuples in
`[0,100]`; at the all-zero state (inside `[0,100]` for every slider) the
normalized jpeg_quality is 0 ∉ [50,100] and blur_sigma is 0 ∉ [1,100]. -/
theorem native_range_counterexample :
    (0 ≤ uiZero.sharpening ∧ uiZero.sharpening ≤ 100) ∧
    (0 ≤ uiZero.blur ∧ uiZero.blur ≤ 100) ∧
    (0 ≤ uiZero.quality ∧ uiZero.quality ≤ 100) ∧
    (0 ≤ uiZero.noise ∧ uiZero.noise ≤ 100) ∧
    (0 ≤ uiZero.saturation ∧ uiZero.saturation ≤ 100) ∧
    (0 ≤ uiZero.contrast ∧ uiZero.contrast ≤ 100) ∧
    (normalizeParams uiZero).jpeg_quality = 0 ∧
    ¬ 50 ≤ (normalizeParams uiZero).jpeg_quality ∧
    (normalizeParams uiZero).blur_sigma = 0 ∧
    ¬ 1 ≤ (normalizeParams uiZero).blur_sigma := by
  have hq : (normalizeParams uiZero).jpeg_quality = 0 := by
    show pyInt 0 = 0
    norm_num [pyInt]
  have hb : (normalizeParams uiZero).blur_sigma = 0 := by
    show ((pyInt 0 : ℤ) : ℚ) = 0
    norm_num [pyInt]
  refine ⟨⟨le_refl 0, by norm_num [uiZero]⟩, ⟨le_refl 0, by norm_num [uiZero]⟩,
    ⟨le_refl 0, by norm_num [uiZero]⟩, ⟨le_refl 0, by norm_num [uiZero]⟩,
    ⟨le_refl 0, by norm_num [uiZero]⟩, ⟨le_refl 0, by norm_num [uiZero]⟩,
    hq, ?_, hb, ?_⟩
  · rw [hq]; norm_num
  · rw [hb]; norm_num

/-- C7 (amended): restricted to the ranges the UI controls actually enforce
(sharpen, noise, saturation, contrast sliders span 0–100; the blur slider
spans 1–100; the quality slider spans 50–100), the normalizer output lies in
the documented native ranges. -/
theorem native_range_bounds (ui : UISliders)
    (h1 : 0 ≤ ui.sharpening) (h2 : ui.sharpening ≤ 100)
    (h3 : 1 ≤ ui.blur) (h4 : ui.blur ≤ 100)
    (h5 : 50 ≤ ui.quality) (h6 : ui.quality ≤ 100)
    (h7 : 0 ≤ ui.noise) (h8 : ui.noise ≤ 100)
    (h9 : 0 ≤ ui.saturation) (h10 : ui.saturation ≤ 100)
    (h11 : 0 ≤ ui.contrast) (h12 : ui.contrast ≤ 100) :
    (0 ≤ (normalizeParams ui).sharpening_strength ∧
      (normalizeParams ui).sharpening_strength ≤ 3) ∧
    (1 ≤ (normalizeParams ui).blur_sigma ∧ (normalizeParams ui).blur_sigma ≤ 100) ∧
    (50 ≤ (normalizeParams ui).jpeg_quality ∧ (normalizeParams ui).jpeg_quality ≤ 100) ∧
    (0 ≤ (normalizeParams ui).noise_reduction ∧ (normalizeParams ui).noise_reduction ≤ 1) ∧
    (0 ≤ (normalizeParams ui).saturation ∧ (normalizeParams ui).saturation ≤ 2) ∧
    (0 ≤ (normalizeParams ui).contrast ∧ (normalizeParams ui).contrast ≤ 2) := by
  have hb0 : (0 : ℚ) ≤ ui.blur := le_trans (by norm_num) h3
  have hq0 : (0 : ℚ) ≤ ui.quality := le_trans (by norm_num) h5
  refine ⟨⟨?_, ?_⟩, ⟨?_, ?_⟩, ⟨?_, ?_⟩, ⟨?_, ?_⟩, ⟨?_, ?_⟩, ⟨?_, ?_⟩⟩
  · show 0 ≤ ui.sharpening / 100 * 3
    positivity
  · show ui.sharpening / 100 * 3 ≤ 3
    linarith
  · show (1 : ℚ) ≤ ((pyInt ui.blur : ℤ) : ℚ)
    rw [pyInt_of_nonneg _ hb0]
    exact_mod_cast Int.le_floor.mpr (by exact_mod_cast h3)
  · show ((pyInt ui.blur : ℤ) : ℚ) ≤ 100
    rw [pyInt_of_nonneg _ hb0]
    exact_mod_cast le_trans (Int.floor_le ui.blur) h4
  · show (50 : ℤ) ≤ pyInt ui.quality
    rw [pyInt_of_nonneg _ hq0]
    exact Int.le_floor.mpr (by exact_mod_cast h5)
  · show pyInt ui.quality ≤ 100
    rw [pyInt_of_nonneg _ hq0]
    have : ((⌊ui.quality⌋ : ℤ) : ℚ) ≤ 100 := le_trans (Int.floor_le ui.quality) h6
    exact_mod_cast this
  · show 0 ≤ ui.noise / 100
    positivity
  · show ui.noise / 100 ≤ 1
    linarith
  · show 0 ≤ ui.saturation / 50
    positivity
  · show ui.saturation / 50 ≤ 2
    linarith
  · show 0 ≤ ui.contrast / 50
    positivity
  · show ui.contrast / 50 ≤ 2
    linarith

/-- C7 witness: the amended bounds applied at slider state
(50, 3, 95, 30, 55, 55). -/
theorem native_range_bounds_app :
    50 ≤ (normalizeParams ⟨50, 3, 95, 30, 55, 55⟩).jpeg_quality ∧
    (normalizeParams ⟨50, 3, 95, 30, 55, 55⟩).jpeg_quality ≤ 100 :=
  (native_range_bounds ⟨50, 3, 95, 30, 55, 55⟩ (by norm_num) (by norm_num)
    (by norm_num) (by norm_num) (by norm_num) (by norm_num) (by norm_num)
    (by norm_num) (by norm_num) (by norm_num) (by norm_num) (by norm_num)).2.2.1

end RawProc

namespace RawProc

/-! ### C8 — missing input -/

/-- Structural restatement of `process_raw_image` with the local variables
inlined (pure zeta-reduction, so this is `rfl`). -/
theorem process_raw_image_eq (app : AppOps) (fs : FS) (input output : String)
    (p : Params) :
    process_raw_image app fs input output p =
      if pathExists fs input = false then (none, fs)
      else
        match app.rawDecode input with
        | .error _ => (none,
            if dirname output ≠ "" ∧ pathExists fs (dirname output) = false
            then dirname output :: fs else fs)
        | .ok rgb_image =>
          match enhance app.cv p (cvtRGB2BGR rgb_image) with
          | .error _ => (none,
              if dirname output ≠ "" ∧ pathExists fs (dirname output) = false
              then dirname output :: fs else fs)
          | .ok enhanced =>
            match app.imwrite output enhanced p.jpeg_quality with
            | .error _ => (none,
                if dirname output ≠ "" ∧ pathExists fs (dirname output) = false
                then dirname output :: fs else fs)
            | .ok wrote => (some output,
                if wrote then output ::
                  (if dirname output ≠ "" ∧ pathExists fs (dirname output) = false
                   then dirname output :: fs else fs)
                else
                  (if dirname output ≠ "" ∧ pathExists fs (dirname output) = false
                   then dirname output :: fs else fs)) := rfl

/-- C8 (confirmed): when the input path does not exist, the orchestration
returns the null result and leaves the file system untouched — in
particular no output file and no directory is created. -/
theorem missing_input_returns_none (app : AppOps) (fs : FS)
    (input output : String) (p : Params) (h : pathExists fs input = false) :
    process_raw_image app fs input output p = (none, fs) := by
  rw [process_raw_image, if_pos h]

/-- C8 witness: with only `"a.raw"` existing, processing `"b.raw"` yields
`none` and changes nothing. -/
theorem missing_input_returns_none_app :
    process_raw_image idApp ["a.raw"] "b.raw" "out/b.jpg" ⟨0, 3, 95, 0, 1, 1⟩ =
      (none, ["a.raw"]) :=
  missing_input_returns_none idApp ["a.raw"] "b.raw" "out/b.jpg" ⟨0, 3, 95, 0, 1, 1⟩
    (by decide)

/-! ### C9 — orchestration boundary -/

/-- C9 (counterexample): an encode failure that `cv2.imwrite` signals by
returning `False` without raising — the spec's own example is an unwritable
path — is NOT converted to a null result: line 93 discards the return
value, so the orchestration reports success with the output path even
though no output file exists afterward. -/
theorem encode_silent_success :
    failWriteApp.imwrite "out.jpg" [[[3, 2, 1]]] 95 = .ok false ∧
    (process_raw_image failWriteApp ["in.raw"] "in.raw" "out.jpg"
      ⟨0, 3, 95, 0, 1, 1⟩).1 = some "out.jpg" ∧
    pathExists (process_raw_image failWriteApp ["in.raw"] "in.raw" "out.jpg"
      ⟨0, 3, 95, 0, 1, 1⟩).2 "out.jpg" = false := by
  have hcv : failWriteApp.cv = idCv := rfl
  have hen : enhance failWriteApp.cv ⟨0, 3, 95, 0, 1, 1⟩ (cvtRGB2BGR [[[1, 2, 3]]]) =
      Except.ok [[[3, 2, 1]]] := by
    show enhance idCv ⟨0, 3, 95, 0, 1, 1⟩ [[[3, 2, 1]]] = Except.ok [[[3, 2, 1]]]
    rw [enhance_neutral_start idCv ⟨0, 3, 95, 0, 1, 1⟩ [[[3, 2, 1]]] [[[3, 2, 1]]]
        rfl rfl rfl rfl (by decide),
      colorStage_skip _ _ _ rfl rfl, ok_bind, pure_eq_ok,
      guardStage_of_ne_one _ (by decide)]
  have hd : failWriteApp.rawDecode "in.raw" = Except.ok [[[1, 2, 3]]] := rfl
  have hw : failWriteApp.imwrite "out.jpg" [[[3, 2, 1]]]
      ((⟨0, 3, 95, 0, 1, 1⟩ : Params).jpeg_quality) = Except.ok false := rfl
  have hproc : process_raw_image failWriteApp ["in.raw"] "in.raw" "out.jpg"
      ⟨0, 3, 95, 0, 1, 1⟩ = (some "out.jpg", ["in.raw"]) := by
    rw [process_raw_image_eq, if_neg (by decide)]
    simp only [hd, hen, hw]
    decide
  refine ⟨rfl, ?_, ?_⟩
  · rw [hproc]
  · rw [hproc]
    decide

/-- C9 (amended): the orchestration always returns either the output path
or the null result, and no exception crosses the public boundary: a missing
input, a raising decoder, a raising enhancement stage and a raising encoder
each produce the null result (the `try/except` converts every raise).  But
when `cv2.imwrite` does not raise, the output path is returned whatever the
write-success flag says — the flag alone decides whether the output file
exists, so an encode failure reported via the `False` return is passed off
as success. -/
theorem orchestration_boundary_spec :
    (∀ (app : AppOps) (fs : FS) (input output : String) (p : Params),
      (process_raw_image app fs input output p).1 = none ∨
      (process_raw_image app fs input output p).1 = some output) ∧
    (∀ (app : AppOps) (fs : FS) (input output : String) (p : Params),
      pathExists fs input = false →
      (process_raw_image app fs input output p).1 = none) ∧
    (∀ (app : AppOps) (fs : FS) (input output : String) (p : Params),
      app.rawDecode input = .error () →
      (process_raw_image app fs input output p).1 = none) ∧
    (∀ (app : AppOps) (fs : FS) (input output : String) (p : Params) (r : Raster),
      app.rawDecode input = .ok r →
      enhance app.cv p (cvtRGB2BGR r) = .error () →
      (process_raw_image app fs input output p).1 = none) ∧
    (∀ (app : AppOps) (fs : FS) (input output : String) (p : Params) (r e : Raster),
      app.rawDecode input = .ok r →
      enhance app.cv p (cvtRGB2BGR r) = .ok e →
      app.imwrite output e p.jpeg_quality = .error () →
      (process_raw_image app fs input output p).1 = none) ∧
    (∀ (app : AppOps) (fs : FS) (input output : String) (p : Params) (r e : Raster)
        (wrote : Bool),
      pathExists fs input = true →
      app.rawDecode input = .ok r →
      enhance app.cv p (cvtRGB2BGR r) = .ok e →
      app.imwrite output e p.jpeg_quality = .ok wrote →
      process_raw_image app fs input output p =
        (some output,
          if wrote then output ::
            (if dirname output ≠ "" ∧ pathExists fs (dirname output) = false
             then dirname output :: fs else fs)
          else
            (if dirname output ≠ "" ∧ pathExists fs (dirname output) = false
             then dirname output :: fs else fs))) := by
  refine ⟨?_, ?_, ?_, ?_, ?_, ?_⟩
  · intro app fs input output p
    rw [process_raw_image_eq]
    by_cases h : pathExists fs input = false
    · rw [if_pos h]; left; rfl
    · rw [if_neg h]
      split
      · left; rfl
      · split
        · left; rfl
        · split
          · left; rfl
          · right; rfl
  · intro app fs input output p h
    rw [process_raw_image_eq, if_pos h]
  · intro app fs input output p hd
    rw [process_raw_image_eq]
    by_cases h : pathExists fs input = false
    · rw [if_pos h]
    · rw [if_neg h]
      simp only [hd]
  · intro app fs input output p r hd he
    rw [process_raw_image_eq]
    by_cases h : pathExists fs input = false
    · rw [if_pos h]
    · rw [if_neg h]
      simp only [hd, he]
  · intro app fs input output p r e hd he hw
    rw [process_raw_image_eq]
    by_cases h : pathExists fs input = false
    · rw [if_pos h]
    · rw [if_neg h]
      simp only [hd, he, hw]
  · intro app fs input output p r e wrote hin hd he hw
    rw [process_raw_image_eq,
      if_neg (by rw [hin]; exact fun hc => Bool.noConfusion hc)]
    simp only [hd, he, hw]

/-- C9 witness: the final conjunct applied with a codec that returns
`False` — the call reports the output path while the file system gains no
output file. -/
theorem orchestration_boundary_spec_app :
    process_raw_image failWriteApp ["in.raw"] "in.raw" "out.jpg" ⟨0, 3, 95, 0, 1, 1⟩ =
      (some "out.jpg", ["in.raw"]) := by
  have hen : enhance failWriteApp.cv ⟨0, 3, 95, 0, 1, 1⟩ (cvtRGB2BGR [[[1, 2, 3]]]) =
      Except.ok [[[3, 2, 1]]] := by
    show enhance idCv ⟨0, 3, 95, 0, 1, 1⟩ [[[3, 2, 1]]] = Except.ok [[[3, 2, 1]]]
    rw [enhance_neutral_start idCv ⟨0, 3, 95, 0, 1, 1⟩ [[[3, 2, 1]]] [[[3, 2, 1]]]
        rfl rfl rfl rfl (by decide),
      colorStage_skip _ _ _ rfl rfl, ok_bind, pure_eq_ok,
      guardStage_of_ne_one _ (by decide)]
  rw [orchestration_boundary_spec.2.2.2.2.2 failWriteApp ["in.raw"] "in.raw" "out.jpg"
    ⟨0, 3, 95, 0, 1, 1⟩ [[[1, 2, 3]]] [[[3, 2, 1]]] false (by decide) rfl hen rfl]
  decide

/-! ### C10 — output directory creation persists -/

/-- C10 (confirmed): when the input exists and the output path has a
directory component that does not yet exist, the orchestration creates it
before invoking the RAW decoder, so it exists in the resulting file system
for every decoder/pipeline/encoder outcome — including the failure paths
that return `none`. -/
theorem output_dir_persists (app : AppOps) (fs : FS) (input output : String)
    (p : Params) (hin : pathExists fs input = true)
    (hdir : dirname output ≠ "")
    (habs : pathExists fs (dirname output) = false) :
    pathExists (process_raw_image app fs input output p).2 (dirname output) = true := by
  rw [process_raw_image_eq,
    if_neg (by rw [hin]; exact fun hc => Bool.noConfusion hc),
    if_pos ⟨hdir, habs⟩]
  cases hd : app.rawDecode input with
  | error u => simp [pathExists]
  | ok r =>
    show pathExists
      (match enhance app.cv p (cvtRGB2BGR r) with
       | .error _ => ((none : Option String), dirname output :: fs)
       | .ok enhanced =>
         match app.imwrite output enhanced p.jpeg_quality with
         | .error _ => (none, dirname output :: fs)
         | .ok wrote => (some output,
             if wrote then output :: dirname output :: fs
             else dirname output :: fs)).2
      (dirname output) = true
    cases he : enhance app.cv p (cvtRGB2BGR r) with
    | error u => simp [pathExists]
    | ok e =>
      show pathExists
        (match app.imwrite output e p.jpeg_quality with
         | .error _ => ((none : Option String), dirname output :: fs)
         | .ok wrote => (some output,
             if wrote then output :: dirname output :: fs
             else dirname output :: fs)).2
        (dirname output) = true
      cases hw : app.imwrite output e p.jpeg_quality with
      | error u => simp [pathExists]
      | ok wrote => cases wrote <;> simp [pathExists]

/-- C10 witness: a failing decoder still leaves the freshly created output
directory `"out"` in the file system while returning `none`. -/
theorem output_dir_persists_app :
    pathExists (process_raw_image failDecodeApp ["in.raw"] "in.raw" "out/img.jpg"
      ⟨0, 3, 95, 0, 1, 1⟩).2 (dirname "out/img.jpg") = true :=
  output_dir_persists failDecodeApp ["in.raw"] "in.raw" "out/img.jpg"
    ⟨0, 3, 95, 0, 1, 1⟩ (by decide) (by decide) (by decide)

end RawProc

namespace RawProc

/-- `cv2.addWeighted(orig, 1+s, blurred, -s, 0)` computes exactly the
per-sample combination stated by the spec,
`original*(1+strength) + blurred*(-strength)` saturated to 8 bits. -/
theorem addWeighted_eq_unsharpSpec (s : ℚ) (r b : Raster) :
    addWeighted r (1 + s) b (-s) 0 = unsharpSpec s r b := by
  unfold addWeighted unsharpSpec
  have hf : (fun (x y : ℕ) => satCast ((1 + s) * (x : ℚ) + (-s) * (y : ℚ) + 0))
      = fun (x y : ℕ) => satCast ((x : ℚ) * (1 + s) + (y : ℚ) * (-s)) := by
    funext x y
    congr 1
    ring
  rw [hf]

/-! ### C2 — identity at neutral parameters -/

/-- C2 (confirmed, and strengthened to exact equality): with
sharpeningStrength = 0, noiseReduction = 0, saturation = 1, contrast = 1,
the pipeline returns the input raster unchanged — in particular within the
claimed ±1 per-channel tolerance. -/
theorem pipeline_identity (cv : CvOps) (p : Params) (r b : Raster)
    (hs : p.sharpening_strength = 0) (hn : p.noise_reduction = 0)
    (hsat : p.saturation = 1) (hcon : p.contrast = 1)
    (hb : cv.gaussianBlur (0, 0) p.blur_sigma 0 r = .ok b)
    (hshape : shape b = shape r) (hwf : wellFormed r) :
    enhance cv p r = .ok r := by
  rw [enhance_neutral_start cv p r b hs hn hb hshape
      (fun row hrow px hpx v hv => (hwf row hrow px hpx).2 v hv),
    colorStage_skip cv p r hsat hcon, ok_bind, pure_eq_ok,
    guardStage_of_ne_one r (wellFormed_numChannels r hwf)]

/-- C2 witness: identity on the 1×1 raster (0,128,255) with neutral
parameters. -/
theorem pipeline_identity_app :
    enhance idCv ⟨0, 3, 95, 0, 1, 1⟩ [[[0, 128, 255]]] = .ok [[[0, 128, 255]]] :=
  pipeline_identity idCv ⟨0, 3, 95, 0, 1, 1⟩ [[[0, 128, 255]]] [[[0, 128, 255]]]
    rfl rfl rfl rfl rfl rfl (by decide)

/-! ### C3 — sharpening always applied -/

/-- C3 (confirmed): the sharpening stage is applied unconditionally: for
every parameter object, whenever the Gaussian blur — invoked with the (0,0)
derive-from-sigma kernel sentinel, sigmaX = blurSigma and the sigmaY = 0
default, which OpenCV reads as sigma along both axes — returns `b`, the
pipeline continues from exactly the raster the claim describes
(per-sample clamped `original*(1+strength) + blurred*(-strength)`) through
the remaining stages. -/
theorem unsharp_always_applied (cv : CvOps) (p : Params) (r b : Raster)
    (hb : cv.gaussianBlur (0, 0) p.blur_sigma 0 r = .ok b) :
    enhance cv p r =
      (denoiseStage cv p (unsharpSpec p.sharpening_strength r b) >>= fun d =>
        colorStage cv p d >>= fun e => pure (guardStage e)) := by
  rw [enhance_eq_stages, sharpenStage_ok cv p r b hb, ok_bind,
    addWeighted_eq_unsharpSpec]

/-- C3 witness: at zero strength on a 1×1 raster, the pipeline continues
from the unsharp-mask raster and returns it. -/
theorem unsharp_always_applied_app :
    enhance idCv ⟨0, 3, 95, 0, 1, 1⟩ [[[7, 8, 9]]] = .ok [[[7, 8, 9]]] := by
  rw [unsharp_always_applied idCv ⟨0, 3, 95, 0, 1, 1⟩ [[[7, 8, 9]]] [[[7, 8, 9]]] rfl]
  have hP : (⟨0, 3, 95, 0, 1, 1⟩ : Params).sharpening_strength = 0 := rfl
  rw [hP, ← addWeighted_eq_unsharpSpec,
    show (1 : ℚ) + 0 = 1 from by norm_num, show -(0 : ℚ) = 0 from neg_zero,
    addWeighted_one_zero _ _ rfl (by decide),
    denoiseStage_of_zero idCv ⟨0, 3, 95, 0, 1, 1⟩ [[[7, 8, 9]]] rfl, ok_bind,
    colorStage_skip _ _ _ rfl rfl, ok_bind, pure_eq_ok,
    guardStage_of_ne_one _ (by decide)]

/-! ### C4 — contrast stage -/

/-- C4 (counterexample): the claim says the contrast stage rounds to the
nearest integer sample; the code truncates (`astype(np.uint8)`).  At sample
101 with contrast 3/2 the exact value is 87.75: the pipeline produces 87,
while the claimed clamp-and-round produces 88. -/
theorem contrast_truncation_counterexample :
    enhance idCv ⟨0, 3, 95, 0, 1, 3/2⟩ [[[101, 101, 101]]] = .ok [[[87, 87, 87]]] ∧
    satCast (((101 : ℚ) - 255/2) * (3/2) + 255/2) = 88 := by
  have hc : (⟨0, 3, 95, 0, 1, 3/2⟩ : Params).contrast ≠ 1 := by
    show (3 : ℚ)/2 ≠ 1
    norm_num
  constructor
  · rw [enhance_neutral_start idCv ⟨0, 3, 95, 0, 1, 3/2⟩ [[[101, 101, 101]]]
        [[[101, 101, 101]]] rfl rfl rfl rfl (by decide)]
    have hsat : satScaled (⟨0, 3, 95, 0, 1, 3/2⟩ : Params) (toQ [[[101, 101, 101]]])
        = toQ [[[101, 101, 101]]] := by
      rw [satScaled, if_neg]
      intro hne
      exact hne rfl
    have h2 : idCv.hsv2bgr (hsvToU8 (satScaled ⟨0, 3, 95, 0, 1, 3/2⟩
        (toQ [[[101, 101, 101]]]))) = .ok [[[101, 101, 101]]] := by
      rw [hsat, hsvToU8_toQ _ (by decide)]
      rfl
    rw [colorStage_run idCv ⟨0, 3, 95, 0, 1, 3/2⟩ [[[101, 101, 101]]]
        [[[101, 101, 101]]] [[[101, 101, 101]]] (Or.inr hc) rfl h2,
      ok_bind, pure_eq_ok, if_pos hc]
    have hcs : contrastStage (⟨0, 3, 95, 0, 1, 3/2⟩ : Params).contrast
        [[[101, 101, 101]]] = [[[87, 87, 87]]] := by
      show contrastStage (3/2) [[[101, 101, 101]]] = [[[87, 87, 87]]]
      have h87 : contrastSample (3/2) 101 = 87 := by
        norm_num [contrastSample, npU8, pyInt, clip255, min_def, max_def]
        decide
      simp [contrastStage, pixmap, h87]
    rw [hcs, guardStage_of_ne_one _ (by decide)]
  · norm_num [satCast, round_eq]
    decide

/-- C4 (amended): the contrast stage is applied exactly when contrast ≠ 1,
and per channel sample it computes `(x − 127.5)·contrast + 127.5`, clamps it
to [0,255], and then truncates toward zero to an integer sample (numpy
`astype(np.uint8)`) — truncation, not rounding. -/
theorem contrast_stage_spec :
    (∀ (c : ℚ) (x : ℕ), contrastSample c x =
      (⌊clip255 (((x : ℚ) - 255/2) * c + 255/2)⌋).toNat) ∧
    (∀ (cv : CvOps) (p : Params) (img hsvU8 e : Raster), p.contrast ≠ 1 →
      cv.bgr2hsv img = .ok hsvU8 →
      cv.hsv2bgr (hsvToU8 (satScaled p (toQ hsvU8))) = .ok e →
      colorStage cv p img = .ok (contrastStage p.contrast e)) ∧
    (∀ (cv : CvOps) (p : Params) (img hsvU8 e : Raster), p.contrast = 1 →
      p.saturation ≠ 1 →
      cv.bgr2hsv img = .ok hsvU8 →
      cv.hsv2bgr (hsvToU8 (satScaled p (toQ hsvU8))) = .ok e →
      colorStage cv p img = .ok e) := by
  refine ⟨?_, ?_, ?_⟩
  · intro c x
    have h0 : 0 ≤ clip255 (((x : ℚ) - 255/2) * c + 255/2) := by
      unfold clip255
      exact le_max_left _ _
    have h255 : clip255 (((x : ℚ) - 255/2) * c + 255/2) ≤ 255 := by
      unfold clip255
      exact max_le (by norm_num) (min_le_left _ _)
    rw [contrastSample, npU8, pyInt_of_nonneg _ h0, Int.emod_eq_of_lt]
    · exact Int.floor_nonneg.mpr h0
    · have h1 : ((⌊clip255 (((x : ℚ) - 255/2) * c + 255/2)⌋ : ℤ) : ℚ) ≤ 255 :=
        le_trans (Int.floor_le _) h255
      have h2 : ⌊clip255 (((x : ℚ) - 255/2) * c + 255/2)⌋ ≤ 255 := by exact_mod_cast h1
      omega
  · intro cv p img hsvU8 e hc h1 h2
    rw [colorStage_run cv p img hsvU8 e (Or.inr hc) h1 h2, if_pos hc]
  · intro cv p img hsvU8 e hc hs h1 h2
    rw [colorStage_run cv p img hsvU8 e (Or.inl hs) h1 h2, if_neg]
    intro hne
    exact hne hc

/-- C4 witness: the contrast conjunct applied at contrast 3/2 with concrete
identity conversions. -/
theorem contrast_stage_spec_app :
    colorStage idCv ⟨0, 3, 95, 0, 1, 3/2⟩ [[[10, 20, 30]]] =
      .ok (contrastStage (⟨0, 3, 95, 0, 1, 3/2⟩ : Params).contrast
        (hsvToU8 (satScaled ⟨0, 3, 95, 0, 1, 3/2⟩ (toQ [[[10, 20, 30]]])))) :=
  contrast_stage_spec.2.1 idCv ⟨0, 3, 95, 0, 1, 3/2⟩ [[[10, 20, 30]]] [[[10, 20, 30]]]
    (hsvToU8 (satScaled ⟨0, 3, 95, 0, 1, 3/2⟩ (toQ [[[10, 20, 30]]])))
    (by show (3 : ℚ)/2 ≠ 1; norm_num) rfl rfl

/-! ### C5 — saturation stage gating -/

/-- C5 (confirmed): the saturation/contrast block runs exactly when
saturation ≠ 1 or contrast ≠ 1 — when both equal 1 the raster skips the
block unchanged (for every choice of HSV conversion collaborator); when it
runs, the raster goes through BGR→HSV, the saturation channel (index 1) is
multiplied by the saturation parameter and clipped to [0,255] while the
other components are untouched and remain in their legal uint8 range, and
the result is converted back. -/
theorem saturation_stage_spec :
    (∀ (cv : CvOps) (p : Params) (img : Raster), p.saturation = 1 → p.contrast = 1 →
      colorStage cv p img = .ok img) ∧
    (∀ (cv : CvOps) (p : Params) (r : Raster), p.saturation = 1 → p.contrast = 1 →
      enhance cv p r =
        (sharpenStage cv p r >>= fun s => denoiseStage cv p s >>= fun d =>
          pure (guardStage d))) ∧
    (∀ (cv : CvOps) (p : Params) (img hsvU8 e : Raster),
      (p.saturation ≠ 1 ∨ p.contrast ≠ 1) →
      cv.bgr2hsv img = .ok hsvU8 →
      cv.hsv2bgr (hsvToU8 (satScaled p (toQ hsvU8))) = .ok e →
      colorStage cv p img =
        .ok (if p.contrast ≠ 1 then contrastStage p.contrast e else e)) ∧
    (∀ (s h sv v : ℚ), satScalePixel s [h, sv, v] = [h, clip255 (sv * s), v]) ∧
    (∀ (s h sv v : ℚ), 0 ≤ h → h ≤ 255 → 0 ≤ sv → sv ≤ 255 → 0 ≤ v → v ≤ 255 →
      ∀ q ∈ satScalePixel s [h, sv, v], 0 ≤ q ∧ q ≤ 255) := by
  refine ⟨fun cv p img hs hc => colorStage_skip cv p img hs hc, ?_,
    fun cv p img hsvU8 e h h1 h2 => colorStage_run cv p img hsvU8 e h h1 h2,
    fun s h sv v => rfl, ?_⟩
  · intro cv p r hs hc
    rw [enhance_eq_stages]
    cases hsp : sharpenStage cv p r with
    | error u => rw [error_bind, error_bind]
    | ok sr =>
      rw [ok_bind, ok_bind]
      cases hd : denoiseStage cv p sr with
      | error u => rw [error_bind, error_bind]
      | ok d =>
        rw [ok_bind, ok_bind, colorStage_skip cv p d hs hc, ok_bind]
  · intro s h sv v h0 h1 h2 h3 h4 h5 q hq
    rw [show satScalePixel s [h, sv, v] = [h, clip255 (sv * s), v] from rfl] at hq
    simp only [List.mem_cons, List.not_mem_nil, or_false] at hq
    rcases hq with rfl | rfl | rfl
    · exact ⟨h0, h1⟩
    · constructor
      · unfold clip255
        exact le_max_left _ _
      · unfold clip255
        exact max_le (by norm_num) (min_le_left _ _)
    · exact ⟨h4, h5⟩

/-- C5 witness: the skip conjunct applied with both parameters neutral. -/
theorem saturation_stage_spec_app :
    colorStage idCv ⟨0, 3, 95, 0, 1, 1⟩ [[[5, 6, 7]]] = .ok [[[5, 6, 7]]] :=
  saturation_stage_spec.1 idCv ⟨0, 3, 95, 0, 1, 1⟩ [[[5, 6, 7]]] rfl rfl

/-! ### C6 — channel guard -/

/-- C6 (counterexample): a 1×1 raster with two channels passes through the
pipeline unchanged — the guard only rewrites one-channel rasters, so the
output has 2 channels, not the claimed 3. -/
theorem two_channel_passthrough :
    enhance idCv ⟨0, 3, 95, 0, 1, 1⟩ [[[10, 20]]] = .ok [[[10, 20]]] ∧
    numChannels ([[[10, 20]]] : Raster) = 2 := by
  constructor
  · rw [enhance_neutral_start idCv ⟨0, 3, 95, 0, 1, 1⟩ [[[10, 20]]] [[[10, 20]]]
        rfl rfl rfl rfl (by decide),
      colorStage_skip _ _ _ rfl rfl, ok_bind, pure_eq_ok,
      guardStage_of_ne_one _ (by decide)]
  · decide

/-- C6 (amended): for every input raster with one or three channels — the
shapes the decoder or the grayscale case can produce — the pipeline output
has exactly 3 channels, assuming the blur and denoise collaborators
preserve the channel count and HSV→BGR produces 3 channels, as OpenCV's do;
a one-channel result is replicated into three by the guard. -/
theorem channel_guard_spec (cv : CvOps) (p : Params) (r e : Raster)
    (hblur : ∀ k sx sy img b, cv.gaussianBlur k sx sy img = .ok b →
      numChannels b = numChannels img)
    (hden : ∀ img h hc tw sw b, cv.fastNlMeansDenoisingColored img h hc tw sw = .ok b →
      numChannels b = numChannels img)
    (hhsv : ∀ img b, cv.hsv2bgr img = .ok b → numChannels b = 3)
    (hch : numChannels r = 1 ∨ numChannels r = 3)
    (he : enhance cv p r = .ok e) :
    numChannels e = 3 := by
  rw [enhance_eq_stages] at he
  cases hb : cv.gaussianBlur (0, 0) p.blur_sigma 0 r with
  | error u =>
    have hserr : sharpenStage cv p r = .error u := by
      unfold sharpenStage
      rw [hb, error_bind]
    rw [hserr, error_bind] at he
    exact Except.noConfusion he
  | ok b =>
    rw [sharpenStage_ok cv p r b hb, ok_bind] at he
    have hcs : numChannels (addWeighted r (1 + p.sharpening_strength) b
        (-p.sharpening_strength) 0) = 1 ∨
        numChannels (addWeighted r (1 + p.sharpening_strength) b
        (-p.sharpening_strength) 0) = 3 := by
      have hbch : numChannels b = numChannels r := hblur _ _ _ _ _ hb
      rcases hch with h | h
      · left
        exact numChannels_addWeighted r b _ _ _ 1 one_pos h (by rw [hbch, h])
      · right
        exact numChannels_addWeighted r b _ _ _ 3 (by norm_num) h (by rw [hbch, h])
    unfold denoiseStage at he
    by_cases hn : p.noise_reduction > 0
    · rw [if_pos hn] at he
      cases hd : cv.fastNlMeansDenoisingColored
          (addWeighted r (1 + p.sharpening_strength) b (-p.sharpening_strength) 0)
          (p.noise_reduction * 10) (p.noise_reduction * 10) 7 21 with
      | error u =>
        rw [hd, error_bind] at he
        exact Except.noConfusion he
      | ok d =>
        rw [hd, ok_bind] at he
        exact channel_after_color cv p d e hhsv
          (by rw [hden _ _ _ _ _ _ hd]; exact hcs) he
    · rw [if_neg hn, pure_eq_ok, ok_bind] at he
      exact channel_after_color cv p _ e hhsv hcs he

/-- C6 witness: the guard specification applied to a 3-channel 1×1 raster
with channel-preserving collaborators. -/
theorem channel_guard_spec_app : numChannels ([[[1, 2, 3]]] : Raster) = 3 := by
  have he : enhance guardCv ⟨0, 3, 95, 0, 1, 1⟩ [[[1, 2, 3]]] = .ok [[[1, 2, 3]]] := by
    rw [enhance_neutral_start guardCv ⟨0, 3, 95, 0, 1, 1⟩ [[[1, 2, 3]]] [[[1, 2, 3]]]
        rfl rfl rfl rfl (by decide),
      colorStage_skip _ _ _ rfl rfl, ok_bind, pure_eq_ok,
      guardStage_of_ne_one _ (by decide)]
  exact channel_guard_spec guardCv ⟨0, 3, 95, 0, 1, 1⟩ [[[1, 2, 3]]] [[[1, 2, 3]]]
    (fun k sx sy img b h => by injection h with h2; rw [← h2])
    (fun img h1 h2 tw sw b h => by injection h with h3; rw [← h3])
    (fun img b h => by injection h with h3; rw [← h3]; rfl)
    (Or.inr (by decide)) he

end RawProc
